import Mathlib

/-!
Shallow embedding of the data-preparation and query layer of the CO₂
emissions dashboard (`app.py`).  A pandas DataFrame of emissions rows is
modelled as a `List` of records; every pandas operation used by the
in-scope functions (`load_data`, `filter_data`, `get_top_emitters`,
`display_kpis`, and the `first_last` reduction ranking) is translated to
an explicit list operation.  Numeric columns are modelled as rationals;
the one place where the code performs an unguarded float division
(the reduction ranking's "% Change") is modelled with an explicit
finite/infinite/NaN value type.  pandas `sort_values` runs with its
default unstable quicksort, so the order of rows with equal keys is not
specified by the program: where a property could depend on that order
(`get_top_emitters`), the sort is modelled by its contract — any
permutation of the frame that is sorted by the key — while frames
sorted on duplicate-free keys (groupby keys, pivot indices) are
modelled with a concrete sort, whose order is fully determined.
-/

/-- One row of the emissions table: a country-year pair together with the
seven numeric source columns (Total, Coal, Oil, Gas, Cement, Flaring,
Other). -/
structure EmissionsRecord where
  country : String
  year : Int
  total : ℚ
  coal : ℚ
  oil : ℚ
  gas : ℚ
  cement : ℚ
  flaring : ℚ
  other : ℚ
deriving DecidableEq

/-- The seven emission source columns, in the display order of the
`sources` list of `app.py` line 41. -/
inductive SourceCol
  | Total
  | Coal
  | Oil
  | Gas
  | Cement
  | Flaring
  | Other
deriving DecidableEq

/-- Column projection `row[source]`. -/
def SourceCol.colVal : SourceCol → EmissionsRecord → ℚ
  | .Total, r => r.total
  | .Coal, r => r.coal
  | .Oil, r => r.oil
  | .Gas, r => r.gas
  | .Cement, r => r.cement
  | .Flaring, r => r.flaring
  | .Other, r => r.other

/-- Non-country aggregate entities dropped by `load_data` (line 32). -/
def non_countries : List String :=
  ["Global", "International Transport", "Kuwaiti Oil Fires", "Antarctica"]

/-- The alias rewrite of `load_data` line 34: `USA` becomes
`United States`; every other name is unchanged. -/
def canonCountry (c : String) : String :=
  if c = "USA" then "United States" else c

/-- Apply the alias rewrite to a whole row (only the country changes). -/
def canonRecord (r : EmissionsRecord) : EmissionsRecord :=
  { r with country := canonCountry r.country }

/-- `load_data` (lines 30-36): drop rows whose country is a non-country
aggregate, rewrite the `USA` alias, then drop rows with year below 2002,
in that order. -/
def load_data (df : List EmissionsRecord) : List EmissionsRecord :=
  (((df.filter fun r => !(non_countries.contains r.country)).map canonRecord).filter
    fun r => decide (2002 ≤ r.year))

/-- `filter_data` (lines 44-46): rows whose country is in the selection
and whose year lies in the inclusive range.  The `source` argument is
unused by the body, exactly as in the code, where it only widens the
cache key. -/
def filter_data (df : List EmissionsRecord) (countries : List String)
    (start_year end_year : Int) (source : SourceCol) : List EmissionsRecord :=
  df.filter fun r =>
    countries.contains r.country &&
      (decide (start_year ≤ r.year) && decide (r.year ≤ end_year))

/-- String comparison used for pandas group keys and pivot indices, as a
Bool relation suitable for sorting. -/
def strLe (a b : String) : Bool := decide (a ≤ b)

/-- Sorted list of the distinct countries of a table: pandas `groupby`
and `pivot_table` sort their keys ascending. -/
def sortedCountries (df : List EmissionsRecord) : List String :=
  ((df.map fun r => r.country).dedup).mergeSort strLe

/-- Sum of one source column over every row of a given country, across
all years of the table. -/
def countrySum (df : List EmissionsRecord) (source : SourceCol) (c : String) : ℚ :=
  ((df.filter fun r => decide (r.country = c)).map (SourceCol.colVal source)).sum

/-- The frame produced by `groupby('Country', as_index=False)[source].sum()`:
one (country, sum) row per distinct country, keys ascending. -/
def groupedSums (df : List EmissionsRecord) (source : SourceCol) : List (String × ℚ) :=
  (sortedCountries df).map fun c => (c, countrySum df source c)

/-- Descending comparison on the summed value, the key used by
`sort_values(source, ascending=False)` in `get_top_emitters`. -/
def sumGe (x y : String × ℚ) : Bool := decide (y.2 ≤ x.2)

/-- Result contract of `sort_values` under its default unstable
quicksort (`kind='quicksort'`): any reordering of the input frame that
is sorted by the key may be returned; the relative order of rows with
equal keys is not specified by the program. -/
def IsSortValuesResult {α : Type} (le : α → α → Bool) (l out : List α) : Prop :=
  List.Perm out l ∧ out.Pairwise (fun x y => le x y = true)

/-- `get_top_emitters` (lines 48-50) under the unstable-sort contract:
`out` is a permitted return value iff it is the first `n` rows of some
permitted descending sort of the grouped sums.  Because `sort_values`
runs with its default unstable quicksort, the program fixes no
particular order among countries with equal sums. -/
def IsTopEmittersResult (df : List EmissionsRecord) (source : SourceCol) (n : Nat)
    (out : List (String × ℚ)) : Prop :=
  ∃ sorted, IsSortValuesResult sumGe (groupedSums df source) sorted ∧
    out = sorted.take n

/-- Percentage change with the zero fallback of `display_kpis` line 62. -/
def percentChange (s e : ℚ) : ℚ :=
  if s ≠ 0 then (e - s) / s * 100 else 0

/-- Contribution share with the zero fallback of `display_kpis` line 63. -/
def contributionShare (v g : ℚ) : ℚ :=
  if g ≠ 0 then v / g * 100 else 0

/-- Values of one column of a sub-table, in row order
(`subset[...][source].values`). -/
def colValues (df : List EmissionsRecord) (source : SourceCol) : List ℚ :=
  df.map (SourceCol.colVal source)

/-- The KPI numbers computed for one selected country by `display_kpis`
(lines 58-64): end-year value, percentage change and contribution share.
The `.values[0]` accesses of lines 60-61 are out-of-bounds on an empty
per-country selection; that failure is modelled as `none`. -/
def countryKpi (df : List EmissionsRecord) (source : SourceCol)
    (start_year end_year : Int) (global_total : ℚ) (c : String) :
    Option (ℚ × ℚ × ℚ) :=
  let subset := df.filter fun r =>
    decide (r.country = c) && (decide (start_year ≤ r.year) && decide (r.year ≤ end_year))
  match (colValues (subset.filter fun r => decide (r.year = start_year)) source).head?,
        (colValues (subset.filter fun r => decide (r.year = end_year)) source).head? with
  | some start_val, some end_val =>
      some (end_val, percentChange start_val end_val, contributionShare end_val global_total)
  | _, _ => none

/-- `display_kpis` (lines 55-64): the global total is the sum of the
chosen column over all rows of the final year; then the KPI triple is
computed for every selected country in order.  A failing `.values[0]`
access anywhere makes the whole call fail (`none`). -/
def display_kpis (df : List EmissionsRecord) (selected : List String)
    (start_year end_year : Int) (source : SourceCol) : Option (List (ℚ × ℚ × ℚ)) :=
  let global_total := (colValues (df.filter fun r => decide (r.year = end_year)) source).sum
  selected.mapM (countryKpi df source start_year end_year global_total)

/-- A pandas float value as produced by the unguarded division of the
reduction ranking: finite, one of the infinities, or NaN. -/
inductive PFloat
  | negInf
  | fin (q : ℚ)
  | posInf
  | nan
deriving DecidableEq

/-- Float semantics of `(e - s) / s * 100` (line 114): there is no zero
guard, so a zero start value produces an infinity (or NaN when the end
value is also zero) instead of a number. -/
def pctFloat (s e : ℚ) : PFloat :=
  if s = 0 then
    if 0 < e - s then .posInf
    else if e - s < 0 then .negInf
    else .nan
  else .fin ((e - s) / s * 100)

/-- Ascending order on pandas float values as used by `sort_values`:
the infinities compare as extreme values and NaN is placed last. -/
def pfLe : PFloat → PFloat → Bool
  | _, .nan => true
  | .nan, _ => false
  | .negInf, _ => true
  | _, .negInf => false
  | _, .posInf => true
  | .posInf, _ => false
  | .fin a, .fin b => decide (a ≤ b)

/-- One cell of the `first_last` pivot table: the mean of the source
values of the rows of a given country and year (`pivot_table` aggregates
duplicates with the mean), `none` when there is no such row (a NaN
cell). -/
def cellAt (df : List EmissionsRecord) (source : SourceCol) (c : String) (y : Int) :
    Option ℚ :=
  let l := colValues (df.filter fun r => decide (r.country = c) && decide (r.year = y)) source
  if l.isEmpty then none else some (l.sum / (l.length : ℚ))

/-- The rows of the `first_last` pivot table that survive `dropna`,
together with their "% Change" column (lines 111-114): one row per
country having a value in both endpoint years, indexed by country
ascending. -/
def firstLastRows (df : List EmissionsRecord) (source : SourceCol) (y0 y1 : Int) :
    List (String × PFloat) :=
  let frame := df.filter fun r => decide (r.year = y0) || decide (r.year = y1)
  ((frame.map fun r => r.country).dedup.mergeSort strLe).filterMap fun c =>
    match cellAt df source c y0, cellAt df source c y1 with
    | some s, some e => some (c, pctFloat s e)
    | _, _ => none

/-- The `reductions` ranking (lines 111-115): % change of the chosen
source between the minimum and maximum year of the whole table, sorted
ascending by the % change, truncated to the first 10 rows. -/
def reductions (df : List EmissionsRecord) (source : SourceCol) :
    List (String × PFloat) :=
  match (df.map fun r => r.year).min?, (df.map fun r => r.year).max? with
  | some y0, some y1 =>
      ((firstLastRows df source y0 y1).mergeSort fun x y => pfLe x.2 y.2).take 10
  | _, _ => []

/-- A row with the given country and year and the same value in every
numeric column; used to build concrete test tables. -/
def mkRec (c : String) (y : Int) (q : ℚ) : EmissionsRecord :=
  ⟨c, y, q, q, q, q, q, q, q⟩

/-- Concrete table on which the reduction ranking divides by zero:
country A has value 0 in the minimum year 2002 and 5 in the maximum year
2021. -/
def dfZero : List EmissionsRecord := [mkRec "A" 2002 0, mkRec "A" 2021 5]

/-- Concrete table containing both the alias `USA` and its canonical
form `United States` for the same year. -/
def dfUSA : List EmissionsRecord := [mkRec "USA" 2005 1, mkRec "United States" 2005 2]

/-- Concrete table realising the spec's reduction-ranking scenario:
country A has values in both endpoint years, country B only in the
first. -/
def dfAB : List EmissionsRecord :=
  [mkRec "A" 2002 100, mkRec "A" 2021 50, mkRec "B" 2002 30]

/-- Concrete table on which `display_kpis` crashes: Germany has a row at
2003 but none at the selected start year 2002. -/
def dfGap : List EmissionsRecord := [mkRec "Germany" 2003 1]

/-- Concrete table in which countries A and B have equal all-years
sums in every source column. -/
def dfTie : List EmissionsRecord := [mkRec "A" 2002 1, mkRec "B" 2002 1]

/-- The alias rewrite does not change the year of a row. -/
@[simp] theorem canonRecord_year (r : EmissionsRecord) : (canonRecord r).year = r.year := rfl

/-- The alias rewrite does not map any name into the exclusion set. -/
theorem canonCountry_not_excluded {c : String} (h : c ∉ non_countries) :
    canonCountry c ∉ non_countries := by
  unfold canonCountry
  split
  · decide
  · exact h

/-- The alias rewrite never yields the alias itself. -/
theorem canonCountry_ne_USA (c : String) : canonCountry c ≠ "USA" := by
  unfold canonCountry
  split
  · decide
  · assumption

/-- C1: `filter_data` returns exactly the rows of the table whose country
is in the selection and whose year lies in the inclusive range; the result
is empty iff no such row exists, and an empty country selection yields an
empty result rather than an error. -/
theorem filter_data_characterisation (df : List EmissionsRecord)
    (C : List String) (a b : Int) (s : SourceCol) :
    (∀ r, r ∈ filter_data df C a b s ↔
        r ∈ df ∧ r.country ∈ C ∧ a ≤ r.year ∧ r.year ≤ b) ∧
    (filter_data df C a b s = [] ↔
        ¬ ∃ r, r ∈ df ∧ r.country ∈ C ∧ a ≤ r.year ∧ r.year ≤ b) ∧
    filter_data df [] a b s = [] := by
  have hmem : ∀ r, r ∈ filter_data df C a b s ↔
      r ∈ df ∧ r.country ∈ C ∧ a ≤ r.year ∧ r.year ≤ b := by
    intro r
    simp [filter_data, List.mem_filter, and_assoc]
  refine ⟨hmem, ?_, by simp [filter_data]⟩
  rw [List.eq_nil_iff_forall_not_mem]
  simp only [hmem, not_exists, not_and]

/-- C9: the rows returned by `filter_data` do not depend on the `source`
argument at all; it only widens the cache key. -/
theorem filter_data_source_independent (df : List EmissionsRecord)
    (C : List String) (a b : Int) (s1 s2 : SourceCol) :
    filter_data df C a b s1 = filter_data df C a b s2 := rfl

/-- C10: `load_data` keeps exactly the input rows whose country is not in
the exclusion set and whose year is at least 2002, each appearing once,
changed only by the USA alias rewrite, in input order. -/
theorem load_data_as_filterMap (df : List EmissionsRecord) :
    load_data df = df.filterMap fun r =>
      if !(non_countries.contains r.country) && decide (2002 ≤ r.year)
      then some (canonRecord r) else none := by
  induction df with
  | nil => rfl
  | cons r t ih =>
    simp only [load_data] at ih
    simp at ih
    by_cases h1 : r.country ∈ non_countries
    · simp only [load_data, List.filter_cons, List.filterMap_cons]
      simp [h1, ih]
    · by_cases h2 : (2002 : Int) ≤ r.year
      · simp only [load_data, List.filter_cons, List.filterMap_cons]
        simp [h1, h2, ih]
      · simp only [load_data, List.filter_cons, List.filterMap_cons]
        simp [h1, h2, ih]

/-- C5: every row surviving `load_data` has a country outside the
exclusion set and a year at least 2002, and the cleaning pipeline is
exactly the exclusion filter, then the alias rewrite, then the year
cutoff, in that order. -/
theorem load_data_cleaning (df : List EmissionsRecord) :
    (∀ r ∈ load_data df, r.country ∉ non_countries ∧ 2002 ≤ r.year) ∧
    load_data df =
      ((df.filter fun r => !(non_countries.contains r.country)).map canonRecord).filter
        (fun r => decide (2002 ≤ r.year)) := by
  refine ⟨?_, rfl⟩
  intro r hr
  rw [load_data, List.mem_filter] at hr
  obtain ⟨hmem, hy⟩ := hr
  rw [List.mem_map] at hmem
  obtain ⟨r0, hr0, rfl⟩ := hmem
  rw [List.mem_filter] at hr0
  have h0 : r0.country ∉ non_countries := by simpa using hr0.2
  exact ⟨canonCountry_not_excluded h0, by simpa using hy⟩

/-- Witness for C5 at a concrete table: the single retained row of a
one-row table satisfies the cleaning invariant. -/
theorem load_data_cleaning_witness :
    (mkRec "Germany" 2005 1).country ∉ non_countries ∧
      2002 ≤ (mkRec "Germany" 2005 1).year :=
  (load_data_cleaning [mkRec "Germany" 2005 1]).1 (mkRec "Germany" 2005 1) (by decide)

/-- C6: the percentage change is `(e - s) / s * 100` for a nonzero start
value and `0` for a zero start value, with the spec's sample values. -/
theorem percentChange_spec :
    (∀ s e : ℚ, s ≠ 0 → percentChange s e = (e - s) / s * 100) ∧
    (∀ e : ℚ, percentChange 0 e = 0) ∧
    percentChange 100 150 = 50 ∧ percentChange 100 50 = -50 := by
  refine ⟨fun s e h => if_pos h, fun e => if_neg (by simp), ?_, ?_⟩
  · rw [percentChange]
    norm_num
  · rw [percentChange]
    norm_num

/-- Witness for C6 at a concrete nonzero start value. -/
theorem percentChange_spec_witness :
    percentChange 100 150 = (150 - 100) / 100 * 100 :=
  percentChange_spec.1 100 150 (by norm_num)

/-- C3 fails on the code: for the one-row table with Germany at 2003 and
the selected range [2002, 2003], the filtered table is non-empty, yet the
KPI computation aborts, because Germany has no row at the start year and
`.values[0]` is taken on an empty selection. -/
theorem display_kpis_crash_on_missing_start :
    filter_data dfGap ["Germany"] 2002 2003 SourceCol.Total ≠ [] ∧
    display_kpis dfGap ["Germany"] 2002 2003 SourceCol.Total = none := by
  constructor
  · decide
  · rfl

/-- C4 fails on the code: in the reduction ranking, country A, whose
value in the minimum year 2002 is 0, receives a non-finite % change
(positive infinity), not the zero-fallback value 0. -/
theorem reduction_zero_division_cex :
    ("A", PFloat.posInf) ∈ reductions dfZero SourceCol.Total ∧
    ("A", PFloat.fin 0) ∉ reductions dfZero SourceCol.Total := by
  have hfl : firstLastRows dfZero SourceCol.Total 2002 2021 = [("A", PFloat.posInf)] := by
    unfold firstLastRows
    norm_num [dfZero, mkRec, List.filter_cons, List.dedup_cons_of_mem,
      List.mergeSort_singleton, List.filterMap_cons, cellAt, colValues, pctFloat,
      SourceCol.colVal]
  have h : reductions dfZero SourceCol.Total = [("A", PFloat.posInf)] := by
    have h0 : (dfZero.map fun r => r.year).min? = some 2002 := by rfl
    have h1 : (dfZero.map fun r => r.year).max? = some 2021 := by rfl
    unfold reductions
    rw [h0, h1]
    show ((firstLastRows dfZero SourceCol.Total 2002 2021).mergeSort
        fun x y => pfLe x.2 y.2).take 10 = [("A", PFloat.posInf)]
    rw [hfl]
    simp [List.mergeSort_singleton]
  rw [h]
  constructor
  · simp
  · simp

/-- C4 amended: the zero-fallback (result 0) applies in the two guarded
percentage computations, the KPI percentage change and the contribution
share; the reduction ranking's percentage change divides without a
guard, so a zero start value yields a non-finite value (an infinity, or
NaN when the end value is also zero), never 0. -/
theorem zero_division_policy :
    (∀ e : ℚ, percentChange 0 e = 0) ∧
    (∀ v : ℚ, contributionShare v 0 = 0) ∧
    (∀ e : ℚ, pctFloat 0 e =
      if 0 < e then PFloat.posInf else if e < 0 then PFloat.negInf else PFloat.nan) := by
  refine ⟨fun e => if_neg (by simp), fun v => if_neg (by simp), fun e => ?_⟩
  rw [pctFloat, if_pos rfl]
  norm_num

/-- C8 fails on the code: `load_data` never deduplicates, and the alias
rewrite itself creates a duplicate (country, year) pair when the input
holds both `USA` and `United States` for the same year. -/
theorem load_data_duplicate_cex :
    ((load_data dfUSA).map fun r => (r.country, r.year)) =
      [("United States", 2005), ("United States", 2005)] ∧
    ¬ ((load_data dfUSA).map fun r => (r.country, r.year)).Nodup := by decide

/-- C8 amended: country names in `load_data` output are canonical (the
USA alias never appears), and the output is unique per (country, year)
provided the input rows are pairwise distinct on the rewritten
(country, year) key; the rewrite can merge USA with United States for
the same year, and `load_data` performs no deduplication of its own. -/
theorem load_data_unique_of_canonically_unique (df : List EmissionsRecord)
    (h : df.Pairwise fun r s =>
      (canonCountry r.country, r.year) ≠ (canonCountry s.country, s.year)) :
    ((load_data df).Pairwise fun r s => (r.country, r.year) ≠ (s.country, s.year)) ∧
    ∀ r ∈ load_data df, r.country ≠ "USA" := by
  constructor
  · have h1 : (df.filter fun r => !(non_countries.contains r.country)).Pairwise
        (fun r s => (canonCountry r.country, r.year) ≠ (canonCountry s.country, s.year)) :=
      List.Pairwise.sublist (List.filter_sublist df) h
    exact List.Pairwise.sublist (List.filter_sublist _) (List.pairwise_map.mpr h1)
  · intro r hr
    rw [load_data, List.mem_filter] at hr
    obtain ⟨hmem, -⟩ := hr
    rw [List.mem_map] at hmem
    obtain ⟨r0, -, rfl⟩ := hmem
    exact canonCountry_ne_USA r0.country

/-- Witness for the amended C8 on a concrete two-row table whose
rewritten keys are distinct. -/
theorem load_data_unique_witness :
    ((load_data [mkRec "USA" 2005 1, mkRec "Germany" 2006 2]).Pairwise
      fun r s => (r.country, r.year) ≠ (s.country, s.year)) ∧
    ∀ r ∈ load_data [mkRec "USA" 2005 1, mkRec "Germany" 2006 2], r.country ≠ "USA" :=
  load_data_unique_of_canonically_unique [mkRec "USA" 2005 1, mkRec "Germany" 2006 2]
    (by decide)

/-- Transitivity of the pandas float order. -/
theorem pfLe_trans (a b c : PFloat) (h1 : pfLe a b = true) (h2 : pfLe b c = true) :
    pfLe a c = true := by
  cases a <;> cases b <;> cases c <;> simp_all [pfLe]
  all_goals linarith

/-- Totality of the pandas float order. -/
theorem pfLe_total (a b : PFloat) : (pfLe a b || pfLe b a) = true := by
  cases a <;> cases b <;> simp_all [pfLe]
  all_goals exact le_total _ _

/-- A pivot cell is present exactly when the table has a row for that
country and year. -/
theorem cellAt_isSome_iff (df : List EmissionsRecord) (source : SourceCol)
    (c : String) (y : Int) :
    (cellAt df source c y).isSome = true ↔ ∃ r ∈ df, r.country = c ∧ r.year = y := by
  have hfilter : ((df.filter fun r => decide (r.country = c) && decide (r.year = y)) = []) ↔
      ¬ ∃ r ∈ df, r.country = c ∧ r.year = y := by
    rw [List.filter_eq_nil_iff]
    simp
  rw [cellAt]
  simp only [colValues, List.isEmpty_iff, List.map_eq_nil_iff]
  by_cases hl : (df.filter fun r => decide (r.country = c) && decide (r.year = y)) = []
  · rw [if_pos hl]
    simp only [Option.isSome_none, Bool.false_eq_true, false_iff]
    exact hfilter.mp hl
  · rw [if_neg hl]
    simp only [Option.isSome_some, true_iff]
    by_contra hcon
    exact hl (hfilter.mpr hcon)

/-- A surviving pivot row forces both endpoint cells to be present and
carries the % change value computed from them. -/
theorem firstLastRows_mem (df : List EmissionsRecord) (source : SourceCol)
    (y0 y1 : Int) (c : String) (pv : PFloat)
    (h : (c, pv) ∈ firstLastRows df source y0 y1) :
    ∃ s e, cellAt df source c y0 = some s ∧ cellAt df source c y1 = some e ∧
      pv = pctFloat s e := by
  simp only [firstLastRows] at h
  rw [List.mem_filterMap] at h
  obtain ⟨c0, hc0, hf⟩ := h
  cases hs : cellAt df source c0 y0 with
  | none => rw [hs] at hf; simp at hf
  | some s =>
    cases he : cellAt df source c0 y1 with
    | none => rw [hs, he] at hf; simp at hf
    | some e =>
      rw [hs, he] at hf
      simp only [Option.some.injEq, Prod.mk.injEq] at hf
      obtain ⟨rfl, rfl⟩ := hf
      exact ⟨s, e, hs, he, rfl⟩

/-- A country with rows in both endpoint years contributes a row to the
surviving pivot rows. -/
theorem firstLastRows_complete (df : List EmissionsRecord) (source : SourceCol)
    (y0 y1 : Int) (c : String)
    (h0 : ∃ r ∈ df, r.country = c ∧ r.year = y0)
    (h1 : ∃ r ∈ df, r.country = c ∧ r.year = y1) :
    ∃ pv, (c, pv) ∈ firstLastRows df source y0 y1 := by
  obtain ⟨s, hs⟩ := Option.isSome_iff_exists.mp ((cellAt_isSome_iff df source c y0).mpr h0)
  obtain ⟨e, he⟩ := Option.isSome_iff_exists.mp ((cellAt_isSome_iff df source c y1).mpr h1)
  refine ⟨pctFloat s e, ?_⟩
  simp only [firstLastRows]
  rw [List.mem_filterMap]
  refine ⟨c, ?_, by rw [hs, he]⟩
  rw [List.mem_mergeSort, List.mem_dedup, List.mem_map]
  obtain ⟨r, hr, hrc, hry⟩ := h0
  exact ⟨r, List.mem_filter.mpr ⟨hr, by simp [hry]⟩, hrc⟩

/-- C7: the reduction ranking compares, for each country having a value
in both the minimum and the maximum year of the whole table (not a
user-selected range), the % change of the chosen source between those
two endpoint years; countries missing either endpoint are excluded; the
survivors are sorted ascending by the % change (most negative first) and
the first 10 are kept. -/
theorem reductions_spec (df : List EmissionsRecord) (source : SourceCol) (y0 y1 : Int)
    (h0 : (df.map fun r => r.year).min? = some y0)
    (h1 : (df.map fun r => r.year).max? = some y1) :
    reductions df source =
      ((firstLastRows df source y0 y1).mergeSort fun x y => pfLe x.2 y.2).take 10 ∧
    (∀ c : String, (∃ pv, (c, pv) ∈ firstLastRows df source y0 y1) ↔
      (∃ r ∈ df, r.country = c ∧ r.year = y0) ∧
        (∃ r ∈ df, r.country = c ∧ r.year = y1)) ∧
    (∀ c pv, (c, pv) ∈ reductions df source →
      ∃ s e, cellAt df source c y0 = some s ∧ cellAt df source c y1 = some e ∧
        pv = pctFloat s e) ∧
    (reductions df source).Pairwise (fun x y => pfLe x.2 y.2 = true) ∧
    (reductions df source).length ≤ 10 := by
  have heq : reductions df source =
      ((firstLastRows df source y0 y1).mergeSort fun x y => pfLe x.2 y.2).take 10 := by
    unfold reductions
    rw [h0, h1]
  refine ⟨heq, ?_, ?_, ?_, ?_⟩
  · intro c
    constructor
    · rintro ⟨pv, hpv⟩
      obtain ⟨s, e, hs, he, -⟩ := firstLastRows_mem df source y0 y1 c pv hpv
      exact ⟨(cellAt_isSome_iff df source c y0).mp (by rw [hs]; rfl),
             (cellAt_isSome_iff df source c y1).mp (by rw [he]; rfl)⟩
    · rintro ⟨ha, hb⟩
      exact firstLastRows_complete df source y0 y1 c ha hb
  · intro c pv hpv
    rw [heq] at hpv
    have hpv2 : (c, pv) ∈ firstLastRows df source y0 y1 :=
      (List.mem_mergeSort).mp ((List.take_sublist 10 _).subset hpv)
    exact firstLastRows_mem df source y0 y1 c pv hpv2
  · rw [heq]
    have htrans : ∀ a b c : String × PFloat,
        pfLe a.2 b.2 = true → pfLe b.2 c.2 = true → pfLe a.2 c.2 = true :=
      fun a b c ha hb => pfLe_trans a.2 b.2 c.2 ha hb
    have htotal : ∀ a b : String × PFloat, (pfLe a.2 b.2 || pfLe b.2 a.2) = true :=
      fun a b => pfLe_total a.2 b.2
    have hs : ((firstLastRows df source y0 y1).mergeSort
        fun x y => pfLe x.2 y.2).Pairwise (fun x y => pfLe x.2 y.2 = true) :=
      List.sorted_mergeSort htrans htotal (firstLastRows df source y0 y1)
    exact List.Pairwise.sublist (List.take_sublist 10 _) hs
  · rw [heq, List.length_take]
    exact Nat.min_le_left _ _

/-- Witness for C7 at the spec's scenario table: country A, which has
rows in both endpoint years, is a candidate of the reduction ranking,
while country B, present only in the first year, is excluded. -/
theorem reductions_spec_witness :
    (∃ pv, ("A", pv) ∈ firstLastRows dfAB SourceCol.Total 2002 2021) ∧
    ¬ (∃ pv, ("B", pv) ∈ firstLastRows dfAB SourceCol.Total 2002 2021) := by
  have h := reductions_spec dfAB SourceCol.Total 2002 2021 (by rfl) (by rfl)
  constructor
  · exact (h.2.1 "A").mpr (by decide)
  · intro hex
    exact absurd ((h.2.1 "B").mp hex).2 (by decide)

/-- C2 fails on the code: on a table where countries A and B have equal
all-years sums, the unstable `sort_values` is permitted to return B
before A, so the returned sequence need not break ties between equal
sums by country name ascending. -/
theorem top_emitters_tie_cex :
    IsTopEmittersResult dfTie SourceCol.Total 2 [("B", 1), ("A", 1)] ∧
    ¬ (([(("B" : String), (1 : ℚ)), ("A", 1)]).Pairwise
        fun x y => x.2 = y.2 → x.1 < y.1) := by
  constructor
  · refine ⟨[("B", 1), ("A", 1)], ⟨?_, by decide⟩, by rfl⟩
    have hperm : List.Perm (sortedCountries dfTie) ["A", "B"] := by
      have h1 : List.Perm (sortedCountries dfTie)
          ((dfTie.map fun r => r.country).dedup) := List.mergeSort_perm _ strLe
      have h2 : (dfTie.map fun r => r.country).dedup = ["A", "B"] := by
        simp [dfTie, mkRec]
      rw [h2] at h1
      exact h1
    have hmap : List.Perm (groupedSums dfTie SourceCol.Total)
        [("A", countrySum dfTie SourceCol.Total "A"),
         ("B", countrySum dfTie SourceCol.Total "B")] := by
      rw [groupedSums]
      exact hperm.map _
    have hA : countrySum dfTie SourceCol.Total "A" = 1 := by
      simp [countrySum, dfTie, mkRec, SourceCol.colVal]
    have hB : countrySum dfTie SourceCol.Total "B" = 1 := by
      simp [countrySum, dfTie, mkRec, SourceCol.colVal]
    rw [hA, hB] at hmap
    exact (List.Perm.swap ("A", 1) ("B", 1) []).trans hmap.symm
  · intro h
    have hR : ((("B" : String), (1 : ℚ)).2 = (("A" : String), (1 : ℚ)).2 →
        (("B" : String), (1 : ℚ)).1 < (("A" : String), (1 : ℚ)).1) :=
      List.rel_of_pairwise_cons h (List.mem_singleton.mpr rfl)
    have hlt : ("B" : String) < "A" := hR rfl
    rw [String.lt_iff_toList_lt] at hlt
    exact absurd hlt (by decide)

/-- C2 amended: every result that `get_top_emitters` is permitted to
return has length min(n, distinct country count), pairs each listed
country with the all-years sum of the chosen source column, and is
non-increasing in the sum; the relative order of countries with equal
sums is left unspecified by the unstable sort, so no tie-break by
country name is guaranteed. -/
theorem top_emitters_contract (df : List EmissionsRecord) (source : SourceCol) (n : Nat)
    (out : List (String × ℚ)) (h : IsTopEmittersResult df source n out) :
    out.length = min n (sortedCountries df).length ∧
    (∀ p ∈ out, p.1 ∈ sortedCountries df ∧ p.2 = countrySum df source p.1) ∧
    out.Pairwise (fun x y => y.2 ≤ x.2) := by
  obtain ⟨sorted, ⟨hperm, hsorted⟩, rfl⟩ := h
  refine ⟨?_, ?_, ?_⟩
  · rw [List.length_take, hperm.length_eq]
    simp [groupedSums]
  · intro p hp
    have hp2 : p ∈ groupedSums df source :=
      hperm.subset ((List.take_sublist n _).subset hp)
    rw [groupedSums] at hp2
    obtain ⟨c, hc, rfl⟩ := List.mem_map.mp hp2
    exact ⟨hc, rfl⟩
  · exact List.Pairwise.sublist (List.take_sublist n _)
      (hsorted.imp fun h => by simpa [sumGe] using h)

/-- Witness for the amended C2 at a concrete one-country table: the
grouped-sums frame itself is a permitted result for n = 1 and satisfies
the contract. -/
theorem top_emitters_contract_witness :
    (groupedSums [mkRec "A" 2002 3] SourceCol.Total).length =
      min 1 (sortedCountries [mkRec "A" 2002 3]).length ∧
    (∀ p ∈ groupedSums [mkRec "A" 2002 3] SourceCol.Total,
        p.1 ∈ sortedCountries [mkRec "A" 2002 3] ∧
        p.2 = countrySum [mkRec "A" 2002 3] SourceCol.Total p.1) ∧
    (groupedSums [mkRec "A" 2002 3] SourceCol.Total).Pairwise
      (fun x y => y.2 ≤ x.2) := by
  have hsingle : groupedSums [mkRec "A" 2002 3] SourceCol.Total =
      [("A", countrySum [mkRec "A" 2002 3] SourceCol.Total "A")] := by
    simp [groupedSums, sortedCountries, mkRec, List.mergeSort_singleton]
  exact top_emitters_contract [mkRec "A" 2002 3] SourceCol.Total 1 _
    ⟨groupedSums [mkRec "A" 2002 3] SourceCol.Total,
      ⟨List.Perm.refl _, by rw [hsingle]; simp⟩,
      by rw [hsingle]; rfl⟩
